import Mathlib

/-!
# Verification of the `ire` transport manager and dispatch engine

Shallow embedding of `src/transport/mod.rs` (the transport-selection and
message-dispatch layer of the `ire` I2P router) and proofs of the frozen
claims about it.

Modelling conventions:
* Machine integers (`u32` costs, `u32` timestamps, `usize` sizes) are `Nat`;
  no arithmetic in this file can overflow a `u32`/`usize` in the source
  because the source only compares and stores them.
* `futures::sync::mpsc` unbounded channels are modelled as a queue (a
  `List`) plus a flag recording whether the receiving end is still alive;
  `unbounded_send` appends on a live channel and returns the item as an
  error on a dead one, which is the documented behaviour of the crate the
  source relies on.
* Rust panics (`expect` / `unwrap`) are modelled as an `Except.error`
  carrying the panic message, so that "fails fast / fatal" claims are
  statable; a function that cannot panic is total into the success type.
* The concrete transports (`ntcp.rs`, `ntcp2.rs`) are collaborators that are
  not part of the reviewed file; their operations (`bid`, `address`,
  `from_file`, `to_file`, `new`) are parameters of the model, faithful to
  the interface the reviewed file uses.
-/

/-- A router identity record (`data::RouterInfo`), opaque to this layer;
only its identity matters, so it is a wrapped `Nat`. -/
structure RouterInfo where
  rid : Nat
  deriving DecidableEq, Repr

/-- An `i2np::Message`, opaque to this layer except for its two size
accountings: `Message::size()` (used by the NTCP bid) and
`Message::ntcp2_size()` (used by the NTCP2 bid). -/
structure Message where
  payload : Nat
  size : Nat
  ntcp2Size : Nat
  deriving DecidableEq, Repr

/-- A `data::RouterAddress`, opaque to this layer. -/
structure RouterAddress where
  addr : Nat
  deriving DecidableEq, Repr

/-- One direction of a `futures::sync::mpsc` unbounded channel: the queued
items (FIFO, oldest first) and whether the receiving half is still alive. -/
structure Chan (α : Type) where
  queue : List α
  alive : Bool
  deriving DecidableEq, Repr

/-- Rust `UnboundedSender::unbounded_send`: enqueue without blocking; fails,
returning the item, exactly when the receiving end has been dropped. -/
def Chan.unboundedSend {α : Type} (c : Chan α) (x : α) : Except α (Chan α) :=
  if c.alive then .ok { c with queue := c.queue ++ [x] } else .error x

/-- A `transport::Handle`: the transmit halves of the message channel and
the timestamp channel of one transport. Since all clones of a Rust
`Handle` share the same two channels, the model identifies the `Handle`
with the state of those channels. -/
structure Handle where
  messageTx : Chan (RouterInfo × Message)
  timestampTx : Chan (RouterInfo × Nat)
  deriving DecidableEq, Repr

/-- The `io::Error` values this layer produces are all of kind `Other` with
a message; only the message distinguishes them. -/
structure IoErr where
  msg : String
  deriving DecidableEq, Repr

/-- Rust `Handle::send`: forward to `unbounded_send` on the message channel,
mapping the channel error into an `io::Error`. Returns the updated channel
state alongside the Rust return value. -/
def Handle.send (h : Handle) (peer : RouterInfo) (msg : Message) :
    Except IoErr Handle :=
  match h.messageTx.unboundedSend (peer, msg) with
  | .ok c => .ok { h with messageTx := c }
  | .error _ => .error ⟨"send error"⟩

/-- Rust `Handle::timestamp`: forward to `unbounded_send` on the timestamp
channel, mapping the channel error into an `io::Error`. -/
def Handle.timestamp (h : Handle) (peer : RouterInfo) (ts : Nat) :
    Except IoErr Handle :=
  match h.timestampTx.unboundedSend (peer, ts) with
  | .ok c => .ok { h with timestampTx := c }
  | .error _ => .error ⟨"timestamp error"⟩

/-- Claim C5: for every peer and message (resp. timestamp), `Handle::send`
(resp. `Handle::timestamp`) enqueues without blocking and returns `Ok` if
and only if the corresponding receiving end is still alive; when the
receiving end has been dropped the call returns an observable error (both
operations are total functions into `Except`, so neither can panic). -/
theorem handle_send_ok_iff_receiver_alive
    (h : Handle) (peer : RouterInfo) (msg : Message) (ts : Nat) :
    ((h.send peer msg).isOk ↔ h.messageTx.alive = true) ∧
    ((h.timestamp peer ts).isOk ↔ h.timestampTx.alive = true) ∧
    (h.messageTx.alive = false → h.send peer msg = .error ⟨"send error"⟩) ∧
    (h.timestampTx.alive = false → h.timestamp peer ts = .error ⟨"timestamp error"⟩) := by
  refine ⟨?_, ?_, ?_, ?_⟩ <;>
    simp only [Handle.send, Handle.timestamp, Chan.unboundedSend] <;>
    cases hm : h.messageTx.alive <;> cases ht : h.timestampTx.alive <;>
    simp [hm, ht, Except.isOk, Except.toBool]

/-- Closed witness for `handle_send_ok_iff_receiver_alive` at a concrete
handle with a live message channel and a dead timestamp channel. -/
theorem handle_send_ok_iff_receiver_alive_witness :
    ((Handle.send ⟨⟨[], true⟩, ⟨[], false⟩⟩ ⟨0⟩ ⟨0, 1, 2⟩).isOk ↔ True) ∧
    ((Handle.timestamp ⟨⟨[], true⟩, ⟨[], false⟩⟩ ⟨0⟩ 7).isOk ↔ False) := by
  have h := handle_send_ok_iff_receiver_alive ⟨⟨[], true⟩, ⟨[], false⟩⟩ ⟨0⟩ ⟨0, 1, 2⟩ 7
  exact ⟨by simpa using h.1, by simpa using h.2.1⟩

/-- Claim C6: `Handle::send` and `Handle::timestamp` operate on independent
queues: a successful `send` appends exactly one item at the tail of the
message queue (call order is preserved, nothing is merged, reordered or
dropped) and leaves the timestamp channel entirely unchanged, and a
successful `timestamp` appends exactly one item to the timestamp queue and
leaves the message channel entirely unchanged. -/
theorem handle_queues_independent
    (h : Handle) (peer : RouterInfo) (msg : Message) (ts : Nat) :
    (∀ h1, h.send peer msg = .ok h1 →
      h1.messageTx.queue = h.messageTx.queue ++ [(peer, msg)] ∧
      h1.messageTx.alive = h.messageTx.alive ∧
      h1.timestampTx = h.timestampTx) ∧
    (∀ h2, h.timestamp peer ts = .ok h2 →
      h2.timestampTx.queue = h.timestampTx.queue ++ [(peer, ts)] ∧
      h2.timestampTx.alive = h.timestampTx.alive ∧
      h2.messageTx = h.messageTx) := by
  constructor
  · intro h1 hok
    simp only [Handle.send, Chan.unboundedSend] at hok
    by_cases hm : h.messageTx.alive <;> simp [hm] at hok
    subst hok
    simp [hm]
  · intro h2 hok
    simp only [Handle.timestamp, Chan.unboundedSend] at hok
    by_cases ht : h.timestampTx.alive <;> simp [ht] at hok
    subst hok
    simp [ht]

/-- Closed witness for `handle_queues_independent`: on a fresh live handle,
a send puts exactly one item on the message queue and leaves the timestamp
queue empty. -/
theorem handle_queues_independent_witness :
    (Handle.send ⟨⟨[], true⟩, ⟨[], true⟩⟩ ⟨1⟩ ⟨5, 10, 12⟩ =
      .ok ⟨⟨[(⟨1⟩, ⟨5, 10, 12⟩)], true⟩, ⟨[], true⟩⟩) ∧
    ((⟨⟨[(⟨1⟩, ⟨5, 10, 12⟩)], true⟩, ⟨[], true⟩⟩ : Handle).messageTx.queue =
      [] ++ [(⟨1⟩, ⟨5, 10, 12⟩)] ∧
     (⟨⟨[(⟨1⟩, ⟨5, 10, 12⟩)], true⟩, ⟨[], true⟩⟩ : Handle).messageTx.alive = true ∧
     (⟨⟨[(⟨1⟩, ⟨5, 10, 12⟩)], true⟩, ⟨[], true⟩⟩ : Handle).timestampTx =
      (⟨⟨[], true⟩, ⟨[], true⟩⟩ : Handle).timestampTx) := by
  have hsend : Handle.send ⟨⟨[], true⟩, ⟨[], true⟩⟩ ⟨1⟩ ⟨5, 10, 12⟩ =
      .ok ⟨⟨[(⟨1⟩, ⟨5, 10, 12⟩)], true⟩, ⟨[], true⟩⟩ := rfl
  exact ⟨hsend,
    (handle_queues_independent ⟨⟨[], true⟩, ⟨[], true⟩⟩ ⟨1⟩ ⟨5, 10, 12⟩ 0).1
      _ hsend⟩

/-- Which of the two configured transports issued a Bid. The Rust `Bid`
wraps a clone of the issuing transport's `Handle`; since the channel state
of each transport's handle lives in the `World` below, the model records
the issuing transport instead of duplicating the channel state. -/
inductive TransportKind
  | ntcp
  | ntcp2
  deriving DecidableEq, Repr

/-- A `transport::Bid`: a numeric cost (`bid: u32`) plus the issuing
transport's handle. -/
structure Bid where
  bid : Nat
  handle : TransportKind
  deriving DecidableEq, Repr

/-- One concrete transport manager (`ntcp::Manager` / `ntcp2::Manager`) as
seen through the interface `transport/mod.rs` uses: its `Transport::bid`
implementation, abstracted to the cost it quotes (`none` when it declines
to bid), and its published `address()`. The implementations live in
`ntcp.rs` / `ntcp2.rs`, outside the reviewed file, so they are parameters
of the model. -/
structure TransportManager where
  bidCost : RouterInfo → Nat → Option Nat
  address : RouterAddress

/-- The `transport::Manager` struct: one owned instance of each transport
kind plus one not-yet-started engine slot per kind. The engine values are
opaque (`Nat` identities). -/
structure Manager where
  ntcp : TransportManager
  ntcpEngine : Option Nat
  ntcp2 : TransportManager
  ntcp2Engine : Option Nat

/-- The observable state `Manager::send` acts on: the manager itself plus
the channel state behind each transport's `Handle` (in Rust that state is
shared through the senders the bids wrap, not stored in the `Manager`). -/
structure World where
  manager : Manager
  ntcpHandle : Handle
  ntcp2Handle : Handle

/-- Rust `Iterator::min_by_key` keyed by `Bid.bid`: the element with the
minimal key; when several are equally minimal, the first one (Rust
documents that `min_by_key` returns the first of equally minimum
elements). -/
def minByBidKey (l : List Bid) : Option Bid :=
  l.foldl
    (fun acc b =>
      match acc with
      | none => some b
      | some a => if b.bid < a.bid then some b else some a)
    none

/-- The bid list built in `Manager::send`:
`once(self.ntcp.bid(&peer, msg.size())).chain(once(self.ntcp2.bid(&peer, msg.ntcp2_size()))).filter_map(|b| b)`.
NTCP is asked with `msg.size()`, NTCP2 with `msg.ntcp2_size()`, in that
enumeration order. -/
def Manager.collectBids (m : Manager) (peer : RouterInfo) (msg : Message) :
    List Bid :=
  ([(m.ntcp.bidCost peer msg.size).map (fun c => Bid.mk c .ntcp),
    (m.ntcp2.bidCost peer msg.ntcp2Size).map (fun c => Bid.mk c .ntcp2)]).filterMap id

/-- The winning bid's `Sink` impl together with the future wrapper in
`Manager::send`: `bid.send((peer, msg))` start_sends the pair into the
issuing transport's message channel; the returned `IoFuture` resolves to
`Ok(())` once the pair is accepted into the queue and to an `io::Error`
("Error in transport::Engine") when the channel is closed. The effect of
driving that future is applied to the world here. -/
def Bid.sendPair (w : World) (b : Bid) (peer : RouterInfo) (msg : Message) :
    Except IoErr Unit × World :=
  match b.handle with
  | .ntcp =>
    match w.ntcpHandle.messageTx.unboundedSend (peer, msg) with
    | .ok c => (.ok (),
        { w with ntcpHandle := { w.ntcpHandle with messageTx := c } })
    | .error _ => (.error ⟨"Error in transport::Engine"⟩, w)
  | .ntcp2 =>
    match w.ntcp2Handle.messageTx.unboundedSend (peer, msg) with
    | .ok c => (.ok (),
        { w with ntcp2Handle := { w.ntcp2Handle with messageTx := c } })
    | .error _ => (.error ⟨"Error in transport::Engine"⟩, w)

/-- Rust `<Manager as OutboundMessageHandler>::send`: query both transports'
bids (each keyed to its own size accounting), drop the `None`s, take the
bid of minimal cost, and hand `(peer, msg)` to that single bid; when no
bids remain, give the pair back unchanged as the `Err` value. The result
pairs the Rust return value (with the returned `IoFuture` already driven
to its resolution) with the updated world. -/
def Manager.send (w : World) (peer : RouterInfo) (msg : Message) :
    Except (RouterInfo × Message) (Except IoErr Unit) × World :=
  match minByBidKey (Manager.collectBids w.manager peer msg) with
  | some b =>
    let r := Bid.sendPair w b peer msg
    (.ok r.1, r.2)
  | none => (.error (peer, msg), w)

/-- Rust `<Manager as CommSystem>::addresses`: one address per transport, NTCP
first. -/
def Manager.addresses (m : Manager) : List RouterAddress :=
  [m.ntcp.address, m.ntcp2.address]

/-- Claim C1: for every peer and message, `Manager::send` queries each
transport's bid keyed to that transport's own size accounting (NTCP with
`msg.size()`, NTCP2 with `msg.ntcp2_size()`), discards the `None`s, and if
a bid remains hands `(peer, msg)` to exactly one transport: the one with
the numerically smallest cost, with ties won by NTCP, the transport
enumerated first. The explicit record updates in the conclusion show the
pair lands on exactly the winner's message queue and every other queue and
every manager field is untouched. -/
theorem manager_send_picks_min_bid
    (w : World) (peer : RouterInfo) (msg : Message)
    (hAlive1 : w.ntcpHandle.messageTx.alive = true)
    (hAlive2 : w.ntcp2Handle.messageTx.alive = true) :
    (∀ a, w.manager.ntcp.bidCost peer msg.size = some a →
      (∀ b, w.manager.ntcp2.bidCost peer msg.ntcp2Size = some b → a ≤ b) →
      Manager.send w peer msg =
        (.ok (.ok ()),
          { w with ntcpHandle := { w.ntcpHandle with
              messageTx := ⟨w.ntcpHandle.messageTx.queue ++ [(peer, msg)], true⟩ } })) ∧
    (∀ b, w.manager.ntcp2.bidCost peer msg.ntcp2Size = some b →
      (∀ a, w.manager.ntcp.bidCost peer msg.size = some a → b < a) →
      Manager.send w peer msg =
        (.ok (.ok ()),
          { w with ntcp2Handle := { w.ntcp2Handle with
              messageTx := ⟨w.ntcp2Handle.messageTx.queue ++ [(peer, msg)], true⟩ } })) := by
  constructor
  · intro a ha hle
    cases hb : w.manager.ntcp2.bidCost peer msg.ntcp2Size with
    | none =>
      simp [Manager.send, Manager.collectBids, minByBidKey, ha, hb,
        Bid.sendPair, Chan.unboundedSend, hAlive1]
    | some b =>
      have hnl : ¬ b < a := Nat.not_lt.mpr (hle b hb)
      simp [Manager.send, Manager.collectBids, minByBidKey, ha, hb, hnl,
        Bid.sendPair, Chan.unboundedSend, hAlive1]
  · intro b hb hlt
    cases ha : w.manager.ntcp.bidCost peer msg.size with
    | none =>
      simp [Manager.send, Manager.collectBids, minByBidKey, ha, hb,
        Bid.sendPair, Chan.unboundedSend, hAlive2]
    | some a =>
      have hl : b < a := hlt a ha
      simp [Manager.send, Manager.collectBids, minByBidKey, ha, hb, hl,
        Bid.sendPair, Chan.unboundedSend, hAlive2]

/-- Closed witness for `manager_send_picks_min_bid`: NTCP bids 10, NTCP2
bids 5, both channels alive — the pair is handed to NTCP2 alone. -/
theorem manager_send_picks_min_bid_witness :
    Manager.send
      ⟨⟨⟨fun _ _ => some 10, ⟨1⟩⟩, some 0, ⟨fun _ _ => some 5, ⟨2⟩⟩, some 1⟩,
       ⟨⟨[], true⟩, ⟨[], true⟩⟩, ⟨⟨[], true⟩, ⟨[], true⟩⟩⟩ ⟨0⟩ ⟨0, 1, 2⟩ =
    (.ok (.ok ()),
      ⟨⟨⟨fun _ _ => some 10, ⟨1⟩⟩, some 0, ⟨fun _ _ => some 5, ⟨2⟩⟩, some 1⟩,
       ⟨⟨[], true⟩, ⟨[], true⟩⟩, ⟨⟨[(⟨0⟩, ⟨0, 1, 2⟩)], true⟩, ⟨[], true⟩⟩⟩) := by
  have h := (manager_send_picks_min_bid
      ⟨⟨⟨fun _ _ => some 10, ⟨1⟩⟩, some 0, ⟨fun _ _ => some 5, ⟨2⟩⟩, some 1⟩,
       ⟨⟨[], true⟩, ⟨[], true⟩⟩, ⟨⟨[], true⟩, ⟨[], true⟩⟩⟩ ⟨0⟩ ⟨0, 1, 2⟩
      rfl rfl).2 5 rfl
      (fun a ha => by
        have h10 : (10 : Nat) = a := Option.some.inj ha
        omega)
  simpa using h

/-- Claim C2: for every peer and message, if every transport's bid returns
`None`, `Manager::send` returns `Err` carrying the original pair, and the
world — in particular every transport queue — is exactly unchanged. -/
theorem manager_send_no_bids_returns_pair
    (w : World) (peer : RouterInfo) (msg : Message)
    (h1 : w.manager.ntcp.bidCost peer msg.size = none)
    (h2 : w.manager.ntcp2.bidCost peer msg.ntcp2Size = none) :
    Manager.send w peer msg = (.error (peer, msg), w) := by
  simp [Manager.send, Manager.collectBids, minByBidKey, h1, h2]

/-- Closed witness for `manager_send_no_bids_returns_pair`: both transports
decline to bid; the pair comes back and the world is untouched. -/
theorem manager_send_no_bids_returns_pair_witness :
    Manager.send
      ⟨⟨⟨fun _ _ => none, ⟨1⟩⟩, some 0, ⟨fun _ _ => none, ⟨2⟩⟩, some 1⟩,
       ⟨⟨[], true⟩, ⟨[], true⟩⟩, ⟨⟨[], true⟩, ⟨[], true⟩⟩⟩ ⟨3⟩ ⟨4, 5, 6⟩ =
    (.error (⟨3⟩, ⟨4, 5, 6⟩),
      ⟨⟨⟨fun _ _ => none, ⟨1⟩⟩, some 0, ⟨fun _ _ => none, ⟨2⟩⟩, some 1⟩,
       ⟨⟨[], true⟩, ⟨[], true⟩⟩, ⟨⟨[], true⟩, ⟨[], true⟩⟩⟩) :=
  manager_send_no_bids_returns_pair _ _ _ rfl rfl

/-- The shared-reference calls claim C9 ranges over. -/
inductive ManagerOp
  | sendOp : RouterInfo → Message → ManagerOp
  | addressesOp : ManagerOp

/-- Run one shared-reference call on the world: `send` may enqueue into a
transport's channel; `addresses` only reads fields (`&self`, no interior
mutability) and so has no state effect. -/
def World.runOp (w : World) : ManagerOp → World
  | .sendOp peer msg => (Manager.send w peer msg).2
  | .addressesOp => w

/-- Run a sequence of shared-reference calls, threading the world. -/
def World.runOps (w : World) : List ManagerOp → World
  | [] => w
  | op :: ops => (w.runOp op).runOps ops

lemma manager_send_snd_manager (w : World) (peer : RouterInfo) (msg : Message) :
    (Manager.send w peer msg).2.manager = w.manager := by
  unfold Manager.send Bid.sendPair
  cases minByBidKey (Manager.collectBids w.manager peer msg) with
  | none => rfl
  | some b =>
    cases b with
    | mk c tk =>
      cases tk with
      | ntcp => cases w.ntcpHandle.messageTx.unboundedSend (peer, msg) <;> rfl
      | ntcp2 => cases w.ntcp2Handle.messageTx.unboundedSend (peer, msg) <;> rfl

/-- Claim C9: `Manager::send` and `Manager::addresses` take the `Manager` by
shared reference and leave every `Manager` field unchanged — after any
sequence of `send` and `addresses` calls the two transport managers and
the two one-shot engine slots are exactly as they were at the start. -/
theorem send_addresses_preserve_manager (w : World) (ops : List ManagerOp) :
    (World.runOps w ops).manager = w.manager := by
  induction ops generalizing w with
  | nil => rfl
  | cons op ops ih =>
    cases op with
    | sendOp peer msg =>
      rw [World.runOps, World.runOp, ih, manager_send_snd_manager]
    | addressesOp =>
      rw [World.runOps, World.runOp]
      exact ih _

/-- Rust `Option::take`: the current contents, and the `none` left behind
in the slot. -/
def optionTake {α : Type} (o : Option α) : Option α × Option α := (o, none)

/-- Rust `<Manager as CommSystem>::start`, modelled up to this claim's
footprint: take each per-transport engine slot in order — an `expect` on
an already-empty slot panics, modelled as `Except.error` carrying the
panic message together with the manager state at the moment of the panic —
and on success return the mutated manager plus the two taken engine
values. Binding the context, spawning the listeners and building the
merged `Engine` use only the taken values and `&self.ntcp`/`&self.ntcp2`;
they never touch the slots. -/
def Manager.start (m : Manager) :
    Except (String × Manager) (Manager × Nat × Nat) :=
  let t1 := optionTake m.ntcpEngine
  let m1 : Manager := { m with ntcpEngine := t1.2 }
  match t1.1 with
  | none => .error ("Cannot call listen() twice", m1)
  | some e1 =>
    let t2 := optionTake m1.ntcp2Engine
    let m2 : Manager := { m1 with ntcp2Engine := t2.2 }
    match t2.1 with
    | none => .error ("Cannot call listen() twice", m2)
    | some e2 => .ok (m2, e1, e2)

/-- Claim C7: on a manager whose two engine slots are still full, `start()`
succeeds and empties both slots; calling `start()` again on the resulting
manager fails fast with the `"Cannot call listen() twice"` programming
error and mutates nothing — the manager at the panic is exactly the
manager the first call produced, so each slot is emptied exactly once, by
the first successful `start()`. -/
theorem manager_start_once (m : Manager) (e1 e2 : Nat)
    (h1 : m.ntcpEngine = some e1) (h2 : m.ntcp2Engine = some e2) :
    Manager.start m =
      .ok ({ m with ntcpEngine := none, ntcp2Engine := none }, e1, e2) ∧
    Manager.start { m with ntcpEngine := none, ntcp2Engine := none } =
      .error ("Cannot call listen() twice",
        { m with ntcpEngine := none, ntcp2Engine := none }) := by
  constructor
  · simp [Manager.start, optionTake, h1, h2]
  · simp [Manager.start, optionTake]

/-- Closed witness for `manager_start_once` on a concrete manager with
engine values 7 and 8 in the slots. -/
theorem manager_start_once_witness :
    Manager.start
      ⟨⟨fun _ _ => none, ⟨1⟩⟩, some 7, ⟨fun _ _ => none, ⟨2⟩⟩, some 8⟩ =
      .ok (⟨⟨fun _ _ => none, ⟨1⟩⟩, none, ⟨fun _ _ => none, ⟨2⟩⟩, none⟩, 7, 8) ∧
    Manager.start
      ⟨⟨fun _ _ => none, ⟨1⟩⟩, none, ⟨fun _ _ => none, ⟨2⟩⟩, none⟩ =
      .error ("Cannot call listen() twice",
        ⟨⟨fun _ _ => none, ⟨1⟩⟩, none, ⟨fun _ _ => none, ⟨2⟩⟩, none⟩) := by
  have h := manager_start_once
    ⟨⟨fun _ _ => none, ⟨1⟩⟩, some 7, ⟨fun _ _ => none, ⟨2⟩⟩, some 8⟩ 7 8 rfl rfl
  exact h

/-- The configuration entries `Manager::from_config` reads. The listen
addresses are kept already parsed (the `parse().unwrap()` on the
configured strings is out of this claim's footprint); `none` models a
missing entry, i.e. a failing `config.get_str(...)`. -/
structure Config where
  ntcpListen : Option RouterAddress
  ntcp2Listen : Option RouterAddress
  ntcp2Keyfile : Option String

/-- The collaborator operations `Manager::from_config` invokes, as oracles
for one construction run: `ntcp::Manager::new` (infallible),
`ntcp2::Manager::from_file` (loading the persisted key material may fail),
`ntcp2::Manager::new` (fresh key material, infallible) and
`ntcp2::Manager::to_file` (persisting may fail). Each yields the manager
and engine values it would produce; all four live outside the reviewed
file. -/
structure ConfigEnv where
  ntcpNew : RouterAddress → TransportManager × Nat
  ntcp2FromFile : RouterAddress → String → Except Unit (TransportManager × Nat)
  ntcp2New : RouterAddress → TransportManager × Nat
  ntcp2ToFile : String → Except Unit Unit

/-- The key-material operations `from_config` performed, in order. -/
inductive KeyEffect
  | load
  | save
  deriving DecidableEq, Repr

/-- Rust `Manager::from_config`: read the three configuration entries (an
`expect`/`unwrap` on a missing one panics, modelled as `Except.error` with
the panic message), build the NTCP manager, then load the NTCP2 key
material from the configured key file; on a load failure generate fresh
material and persist it, and panic (`unwrap`) if that save fails. Returns
the Rust outcome together with the log of key-material operations
performed. -/
def Manager.fromConfig (env : ConfigEnv) (cfg : Config) :
    Except String Manager × List KeyEffect :=
  match cfg.ntcpListen with
  | none => (.error "Must configure an NTCP address", [])
  | some ntcpAddr =>
    match cfg.ntcp2Listen with
    | none => (.error "Must configure an NTCP2 address", [])
    | some ntcp2Addr =>
      match cfg.ntcp2Keyfile with
      | none => (.error "called unwrap on a missing NTCP2 keyfile entry", [])
      | some keyfile =>
        let ntcpPair := env.ntcpNew ntcpAddr
        match env.ntcp2FromFile ntcp2Addr keyfile with
        | .ok p =>
          (.ok ⟨ntcpPair.1, some ntcpPair.2, p.1, some p.2⟩, [.load])
        | .error _ =>
          let fresh := env.ntcp2New ntcp2Addr
          match env.ntcp2ToFile keyfile with
          | .ok _ =>
            (.ok ⟨ntcpPair.1, some ntcpPair.2, fresh.1, some fresh.2⟩,
              [.load, .save])
          | .error _ =>
            (.error "failed to save freshly generated NTCP2 keys", [.load, .save])

/-- Claim C8: in `Manager::from_config`, when the persisted NTCP2 key
material is absent or unreadable (the load fails), the manager generates
fresh material and persists it before continuing (the effect log is
`[load, save]` and the constructed manager carries the freshly generated
NTCP2 manager); if that save fails, construction panics — it never
silently continues with material that failed to save. -/
theorem from_config_key_persistence
    (env : ConfigEnv) (cfg : Config) (a1 a2 : RouterAddress) (kf : String)
    (hc1 : cfg.ntcpListen = some a1) (hc2 : cfg.ntcp2Listen = some a2)
    (hkf : cfg.ntcp2Keyfile = some kf)
    (hload : env.ntcp2FromFile a2 kf = .error ()) :
    (env.ntcp2ToFile kf = .ok () →
      Manager.fromConfig env cfg =
        (.ok ⟨(env.ntcpNew a1).1, some (env.ntcpNew a1).2,
              (env.ntcp2New a2).1, some (env.ntcp2New a2).2⟩,
         [.load, .save])) ∧
    (env.ntcp2ToFile kf = .error () →
      Manager.fromConfig env cfg =
        (.error "failed to save freshly generated NTCP2 keys",
         [.load, .save])) := by
  constructor <;> intro hsave <;>
    simp [Manager.fromConfig, hc1, hc2, hkf, hload, hsave]

/-- Closed witness for `from_config_key_persistence`: a run whose key-file
load fails and whose save succeeds constructs the manager from the freshly
generated material, having loaded then saved. -/
theorem from_config_key_persistence_witness :
    Manager.fromConfig
      ⟨fun a => (⟨fun _ _ => none, a⟩, 0), fun _ _ => .error (),
       fun a => (⟨fun _ _ => none, a⟩, 1), fun _ => .ok ()⟩
      ⟨some ⟨1⟩, some ⟨2⟩, some "ntcp2.keys.dat"⟩ =
    (.ok ⟨⟨fun _ _ => none, ⟨1⟩⟩, some 0, ⟨fun _ _ => none, ⟨2⟩⟩, some 1⟩,
     [.load, .save]) := by
  have h := (from_config_key_persistence
      ⟨fun a => (⟨fun _ _ => none, a⟩, 0), fun _ _ => .error (),
       fun a => (⟨fun _ _ => none, a⟩, 1), fun _ => .ok ()⟩
      ⟨some ⟨1⟩, some ⟨2⟩, some "ntcp2.keys.dat"⟩
      ⟨1⟩ ⟨2⟩ "ntcp2.keys.dat" rfl rfl rfl rfl).1 rfl
  simpa using h

/-- Claim C10: `Manager::from_config` treats a missing NTCP2 key-file
configuration entry as fatal (an `unwrap` panic) with an empty key-effect
log — it aborts before any load is attempted — even though, with the entry
present, a failure to load the key file at that path is recovered from
(construction still succeeds). -/
theorem from_config_missing_keyfile_fatal
    (env : ConfigEnv) (cfg : Config) (a1 a2 : RouterAddress)
    (hc1 : cfg.ntcpListen = some a1) (hc2 : cfg.ntcp2Listen = some a2) :
    (cfg.ntcp2Keyfile = none →
      Manager.fromConfig env cfg =
        (.error "called unwrap on a missing NTCP2 keyfile entry", [])) ∧
    (∀ kf, cfg.ntcp2Keyfile = some kf →
      env.ntcp2FromFile a2 kf = .error () →
      env.ntcp2ToFile kf = .ok () →
      (Manager.fromConfig env cfg).1.isOk = true) := by
  constructor
  · intro hkf
    simp [Manager.fromConfig, hc1, hc2, hkf]
  · intro kf hkf hload hsave
    simp [Manager.fromConfig, hc1, hc2, hkf, hload, hsave, Except.isOk,
      Except.toBool]

/-- Closed witness for `from_config_missing_keyfile_fatal`: with the
key-file entry missing, construction fails fast with no load performed;
with the entry present and an unreadable key file, construction succeeds. -/
theorem from_config_missing_keyfile_fatal_witness :
    Manager.fromConfig
      ⟨fun a => (⟨fun _ _ => none, a⟩, 0), fun _ _ => .error (),
       fun a => (⟨fun _ _ => none, a⟩, 1), fun _ => .ok ()⟩
      ⟨some ⟨1⟩, some ⟨2⟩, none⟩ =
      (.error "called unwrap on a missing NTCP2 keyfile entry", []) ∧
    (Manager.fromConfig
      ⟨fun a => (⟨fun _ _ => none, a⟩, 0), fun _ _ => .error (),
       fun a => (⟨fun _ _ => none, a⟩, 1), fun _ => .ok ()⟩
      ⟨some ⟨1⟩, some ⟨2⟩, some "ntcp2.keys.dat"⟩).1.isOk = true := by
  constructor
  · exact (from_config_missing_keyfile_fatal
      ⟨fun a => (⟨fun _ _ => none, a⟩, 0), fun _ _ => .error (),
       fun a => (⟨fun _ _ => none, a⟩, 1), fun _ => .ok ()⟩
      ⟨some ⟨1⟩, some ⟨2⟩, none⟩ ⟨1⟩ ⟨2⟩ rfl rfl).1 rfl
  · exact (from_config_missing_keyfile_fatal
      ⟨fun a => (⟨fun _ _ => none, a⟩, 0), fun _ _ => .error (),
       fun a => (⟨fun _ _ => none, a⟩, 1), fun _ => .ok ()⟩
      ⟨some ⟨1⟩, some ⟨2⟩, some "ntcp2.keys.dat"⟩ ⟨1⟩ ⟨2⟩ rfl rfl).2
      "ntcp2.keys.dat" rfl rfl rfl

/-- Rust `futures::Async`. -/
inductive Async (α : Type)
  | ready : α → Async α
  | notReady
  deriving DecidableEq, Repr

/-- One result of polling the merged `Select` stream of the two
transports' inbound engines: `Err` when a component stream reported a
fatal failure (propagated by the `?` in `Engine::poll`),
`Ok(Ready(Some(item)))` for an arrived `(peer, message)`, `Ok(Ready(None))`
when both component streams have ended, and `Ok(NotReady)` when nothing is
currently available. -/
def MergedPoll : Type := Except Unit (Async (Option (RouterInfo × Message)))

/-- The body of `<Engine as Future>::poll`, fuel-bounded. `src i` is the
result the merged stream's `poll()` returns on its `i`-th call within this
poll (the channel-backed streams are deterministic once their contents are
fixed). The while-let loop is translated arm by arm: a stream error
propagates out; `Ready(Some)` hands the item to `msg_handler.handle`
synchronously and loops; `Ready(None)` matches the `while let
Async::Ready(f)` pattern with `f = None`, so the `if let Some` is skipped
and the loop also continues; `NotReady` leaves the loop and returns
`Ok(Async::NotReady)`. The result is `none` when the loop is still running
after `iters` polls, and otherwise the ordered list of items handed to the
message handler together with the value `poll` returns. -/
def Engine.pollLoop (src : Nat → MergedPoll) :
    Nat → Nat → List (RouterInfo × Message) →
    Option (List (RouterInfo × Message) × Except Unit (Async Unit))
  | 0, _, _ => none
  | iters + 1, i, handled =>
    match src i with
    | .error e => some (handled, .error e)
    | .ok (.ready (some item)) => Engine.pollLoop src iters (i + 1) (handled ++ [item])
    | .ok (.ready none) => Engine.pollLoop src iters (i + 1) handled
    | .ok .notReady => some (handled, .ok .notReady)

/-- One call of `<Engine as Future>::poll`, starting the loop at the first
merged-stream poll with nothing handled yet. -/
def Engine.poll (src : Nat → MergedPoll) (iters : Nat) :
    Option (List (RouterInfo × Message) × Except Unit (Async Unit)) :=
  Engine.pollLoop src iters 0 []

/-- A merged-stream behaviour from a finite list of poll results: after
the listed results the stream is quiescent (`NotReady` forever). -/
def srcOfList (l : List MergedPoll) : Nat → MergedPoll :=
  fun i => (l.get? i).getD (.ok .notReady)

/-- An arrived item as a merged-stream poll result. -/
def itemRes (it : RouterInfo × Message) : MergedPoll :=
  .ok (.ready (some it))

lemma srcOfList_cons (x : MergedPoll) (l : List MergedPoll) (i : Nat) :
    srcOfList (x :: l) (i + 1) = srcOfList l i := rfl

lemma pollLoop_shift (x : MergedPoll) (l : List MergedPoll)
    (iters i : Nat) (acc : List (RouterInfo × Message)) :
    Engine.pollLoop (srcOfList (x :: l)) iters (i + 1) acc =
      Engine.pollLoop (srcOfList l) iters i acc := by
  induction iters generalizing i acc with
  | zero => rfl
  | succ n ih =>
    rw [Engine.pollLoop, Engine.pollLoop, srcOfList_cons]
    cases srcOfList l i with
    | error e => rfl
    | ok a =>
      cases a with
      | notReady => rfl
      | ready o => cases o <;> exact ih _ _

lemma pollLoop_drains (items : List (RouterInfo × Message))
    (tail : List MergedPoll) (acc : List (RouterInfo × Message)) :
    Engine.pollLoop (srcOfList (items.map itemRes ++ tail))
        (items.length + 1) 0 acc =
      Engine.pollLoop (srcOfList tail) 1 0 (acc ++ items) := by
  induction items generalizing acc with
  | nil => simp
  | cons it rest ih =>
    rw [List.map_cons, List.cons_append, Engine.pollLoop]
    show Engine.pollLoop _ (rest.length + 1) 1 (acc ++ [it]) = _
    rw [pollLoop_shift, ih, List.append_assoc]
    rfl

/-- Claim C3: the Engine future never completes with a success value — the
only values a returning `poll` can produce are `Ok(NotReady)` and a
propagated failure (first conjunct); when the merged streams hold some
arrived items and then report `NotReady`, a single `poll` hands exactly
those items, in arrival order, to the inbound message handler and returns
`NotReady` (second conjunct); and when a component stream reports a fatal
failure after the available items, the failure propagates as the Engine's
own failure, stopping it (third conjunct). -/
theorem engine_poll_drains_and_never_completes :
    (∀ (src : Nat → MergedPoll) (iters i : Nat)
        (acc handled : List (RouterInfo × Message))
        (out : Except Unit (Async Unit)),
      Engine.pollLoop src iters i acc = some (handled, out) →
        out ≠ .ok (.ready ())) ∧
    (∀ items : List (RouterInfo × Message),
      Engine.poll (srcOfList (items.map itemRes)) (items.length + 1) =
        some (items, .ok .notReady)) ∧
    (∀ items : List (RouterInfo × Message),
      Engine.poll (srcOfList (items.map itemRes ++ [.error ()]))
          (items.length + 1) =
        some (items, .error ())) := by
  refine ⟨?_, ?_, ?_⟩
  · intro src iters
    induction iters with
    | zero => intro i acc handled out h; cases h
    | succ n ih =>
      intro i acc handled out h
      rw [Engine.pollLoop] at h
      cases hs : src i with
      | error e =>
        rw [hs] at h
        cases h
        intro hc
        cases hc
      | ok a =>
        rw [hs] at h
        cases a with
        | notReady =>
          cases h
          intro hc
          cases hc
        | ready o => cases o <;> exact ih _ _ _ _ h
  · intro items
    have h := pollLoop_drains items [] []
    simpa [Engine.poll, Engine.pollLoop, srcOfList] using h
  · intro items
    have h := pollLoop_drains items [.error ()] []
    simpa [Engine.poll, Engine.pollLoop, srcOfList] using h

/-- Closed witness for `engine_poll_drains_and_never_completes` at a
concrete one-item stream: the returned value is not a success, the item is
handed over exactly once before `NotReady`, and an error after it
propagates. -/
theorem engine_poll_drains_and_never_completes_witness :
    ((.ok .notReady : Except Unit (Async Unit)) ≠ .ok (.ready ())) ∧
    Engine.poll (srcOfList [itemRes (⟨1⟩, ⟨2, 3, 4⟩)]) 2 =
      some ([(⟨1⟩, ⟨2, 3, 4⟩)], .ok .notReady) ∧
    Engine.poll (srcOfList [itemRes (⟨1⟩, ⟨2, 3, 4⟩), .error ()]) 2 =
      some ([(⟨1⟩, ⟨2, 3, 4⟩)], .error ()) := by
  refine ⟨?_, ?_, ?_⟩
  · exact engine_poll_drains_and_never_completes.1
      (srcOfList []) 1 0 [] [] (.ok .notReady) rfl
  · simpa using engine_poll_drains_and_never_completes.2.1 [(⟨1⟩, ⟨2, 3, 4⟩)]
  · simpa using engine_poll_drains_and_never_completes.2.2 [(⟨1⟩, ⟨2, 3, 4⟩)]

/-- Claim C4 fails on the code: once every component stream has terminated,
the merged stream reports `Ready(None)` on every poll, and the `while let
Async::Ready(f)` loop in `Engine::poll` then re-enters forever — for every
fuel bound the loop has neither exited nor yielded, so the Engine task
spins inside `poll` instead of observing end-of-stream and exiting. -/
theorem engine_poll_spins_on_end_of_stream
    (iters i : Nat) (acc : List (RouterInfo × Message)) :
    Engine.pollLoop (fun _ => .ok (.ready none)) iters i acc = none := by
  induction iters generalizing i acc with
  | zero => rfl
  | succ n ih => exact ih (i + 1) acc
